import Mathlib

/-!
# A verification model of balog's report-aggregation and geolocation-caching engine

This file gives a shallow embedding, in Lean 4, of the core of the `balog`
ban-action logger (`database.go`, `run.go`): the event store, the IP→location
cache, the two-window report aggregator and the three report renderers
(plain text, JSON, telegraph HTML).

Modelling conventions:

* Timestamps are integers counting seconds since the Unix epoch, and
  `time.Time.AddDate(0, 0, n)` becomes addition of `n * 86400` seconds
  (`addDays`).  The `"2006-01-02 15:04:05"` format of Go is reproduced by
  `formatTimestamp` (proleptic Gregorian calendar, UTC).
* The SQLite tables behind gorm are modelled relationally: a table is a list
  of rows in insertion (rowid) order, and the surrogate ids that gorm assigns
  on `Create` are modelled by explicit `next…Id` counters in the `Store`.
  `Find` with a `WHERE` clause is a filter over the list, an update is a map,
  and the error channel of an operation carries only logical failures (the
  UNIQUE violation of `SaveLocation`, and the `ErrMissingWhereClause` guard
  with which gorm v2 blocks the conditions-free global delete of
  `PurgeLogs` before any SQL runs); infrastructure faults of the storage
  layer are outside the relational model.
* `time.Now()` is passed in as an explicit parameter wherever the Go code
  reads the wall clock.  `generateReport` reads the clock three times (once
  for the date-range strings and once per window scan); the faithful model
  `generateReportAtClock` takes the three readings separately, while
  `generateReport` is the frozen-clock special case in which all three
  coincide.
* `sort.Slice` (an unstable sort in Go) is modelled by an insertion sort on
  the source's strict comparator; no theorem below relies on the stability
  of this choice.
* The external geolocation call of `FetchLocation` is modelled by an explicit
  response oracle of type `Except String String` (the country name on
  success, an error message on failure).
* `json.Marshal` / `json.Unmarshal` are modelled at the level of JSON values
  (`Json` below), with object fields kept as ordered association lists, so
  that the field order and the array order of the encoding are observable.
-/

namespace Balog

/-! ## Time model -/

/-- Seconds in one day: `AddDate(0, 0, n)` is modelled as `n` of these. -/
def secondsPerDay : Int := 86400

/-- Model of `t.AddDate(0, 0, n)`. -/
def addDays (t : Int) (n : Int) : Int := t + n * secondsPerDay

/-- Decimal rendering of a nonnegative integer, padded to two digits. -/
def pad2 (n : Int) : String := if n < 10 then "0" ++ toString n else toString n

/-- Decimal rendering of a nonnegative integer, padded to four digits. -/
def pad4 (n : Int) : String :=
  if n < 10 then "000" ++ toString n
  else if n < 100 then "00" ++ toString n
  else if n < 1000 then "0" ++ toString n
  else toString n

/-- Gregorian calendar date of a day count since 1970-01-01
(civil-from-days algorithm); returns `(year, month, day)`. -/
def civilFromDays (z : Int) : Int × Int × Int :=
  let z := z + 719468
  let era : Int := (if 0 ≤ z then z else z - 146096) / 146097
  let doe : Int := z - era * 146097
  let yoe : Int := (doe - doe / 1460 + doe / 36524 - doe / 146096) / 365
  let y : Int := yoe + era * 400
  let doy : Int := doe - (365 * yoe + yoe / 4 - yoe / 100)
  let mp : Int := (5 * doy + 2) / 153
  let d : Int := doy - (153 * mp + 2) / 5 + 1
  let m : Int := mp + (if mp < 10 then 3 else -9)
  (y + (if m ≤ 2 then 1 else 0), m, d)

/-- Model of Go's `Format("2006-01-02 15:04:05")` on an epoch-second
timestamp (UTC). -/
def formatTimestamp (t : Int) : String :=
  let days := Int.fdiv t secondsPerDay
  let secs := Int.emod t secondsPerDay
  let ymd := civilFromDays days
  pad4 ymd.1 ++ "-" ++ pad2 ymd.2.1 ++ "-" ++ pad2 ymd.2.2 ++ " " ++
    pad2 (secs / 3600) ++ ":" ++ pad2 (secs % 3600 / 60) ++ ":" ++ pad2 (secs % 60)

/-! ## The `keyValues` insertion-ordered counter map (`database.go`) -/

/-- One entry of the insertion-ordered mapping (`keyValue` in `database.go`). -/
structure keyValue where
  Key : String
  Value : Int
deriving DecidableEq, Repr

/-- The insertion-ordered mapping (`keyValues` in `database.go`). -/
abbrev keyValues := List keyValue

/-- `(*keyValues).Set`: overwrite the value of an existing key in place,
else append a fresh entry at the end. -/
def keyValues.Set : keyValues → String → Int → keyValues
  | [], key, value => [⟨key, value⟩]
  | kv :: rest, key, value =>
    if kv.Key = key then ⟨kv.Key, value⟩ :: rest
    else kv :: keyValues.Set rest key value

/-- `(*keyValues).Get`: value of the first entry with the given key together
with an existence flag, `(0, false)` when the key is absent. -/
def keyValues.Get : keyValues → String → Int × Bool
  | [], _ => (0, false)
  | kv :: rest, key => if kv.Key = key then (kv.Value, true) else keyValues.Get rest key

/-- Insert an entry into a list already sorted by descending `Value`,
keeping it sorted. -/
def insertDescByValue (kv : keyValue) : keyValues → keyValues
  | [] => [kv]
  | kv' :: rest =>
    if kv'.Value < kv.Value then kv :: kv' :: rest
    else kv' :: insertDescByValue kv rest

/-- `sortKeyValues`: copy the list and sort it by descending `Value`
(`sort.Slice` with the strict comparator `Value >`).  The sort in the source
is not guaranteed stable and nothing below depends on the stability of the
insertion sort used here. -/
def sortKeyValues (kvs : keyValues) : keyValues :=
  kvs.foldr insertDescByValue []

/-- Keys of a list of strings in order of first occurrence, starting from an
already-accumulated prefix. -/
def firstSeenFrom (acc : List String) (xs : List String) : List String :=
  xs.foldl (fun acc x => if x ∈ acc then acc else acc ++ [x]) acc

/-- Keys of a list of strings in order of first occurrence. -/
def firstSeen (xs : List String) : List String := firstSeenFrom [] xs

/-! ### Lemmas about `Set` and `Get` -/

theorem keyValues_Get_Set (kvs : keyValues) (k : String) (v : Int) (k' : String) :
    keyValues.Get (keyValues.Set kvs k v) k' =
      if k' = k then (v, true) else keyValues.Get kvs k' := by
  induction kvs with
  | nil =>
    rcases eq_or_ne k' k with h | h
    · subst h; simp [keyValues.Set, keyValues.Get]
    · simp [keyValues.Set, keyValues.Get, h, Ne.symm h]
  | cons kv rest ih =>
    by_cases hk : kv.Key = k
    · rcases eq_or_ne k' k with h | h
      · subst h; simp [keyValues.Set, keyValues.Get, hk]
      · have hkk' : kv.Key ≠ k' := fun hc => h (hc ▸ hk.symm ▸ rfl)
        simp [keyValues.Set, keyValues.Get, hk, hkk', h, Ne.symm h]
    · by_cases hkk' : kv.Key = k'
      · have h : k' ≠ k := fun hc => hk (hkk' ▸ hc ▸ rfl)
        simp [keyValues.Set, keyValues.Get, hk, hkk', h]
      · simp [keyValues.Set, keyValues.Get, hk, hkk', ih]

theorem keyValues_keys_Set (kvs : keyValues) (k : String) (v : Int) :
    (keyValues.Set kvs k v).map keyValue.Key =
      if k ∈ kvs.map keyValue.Key then kvs.map keyValue.Key
      else kvs.map keyValue.Key ++ [k] := by
  induction kvs with
  | nil => simp [keyValues.Set]
  | cons kv rest ih =>
    by_cases hk : kv.Key = k
    · have hmem : k ∈ kv.Key :: rest.map keyValue.Key := List.mem_cons.mpr (Or.inl hk.symm)
      simp only [keyValues.Set, if_pos hk, List.map_cons, if_pos hmem]
    · by_cases hm : k ∈ rest.map keyValue.Key
      · have hmem : k ∈ kv.Key :: rest.map keyValue.Key := List.mem_cons.mpr (Or.inr hm)
        simp only [keyValues.Set, if_neg hk, List.map_cons, ih, if_pos hm, if_pos hmem]
      · have hmem : k ∉ kv.Key :: rest.map keyValue.Key := by
          rw [List.mem_cons, not_or]
          exact ⟨fun hc => hk hc.symm, hm⟩
        simp only [keyValues.Set, if_neg hk, List.map_cons, ih, if_neg hm, if_neg hmem,
          List.cons_append]

/-! ## Data model: the event store and the location cache -/

/-- `unknownLocation` of `database.go`. -/
def unknownLocation : String := "Unknown"

/-- `projectURL` of `database.go`. -/
def projectURL : String := "https://github.com/meinside/balog"

/-- A row of the ban-action table (`BanActionLog` in `database.go`); `id` is
the gorm surrogate key, `location` is null until the enrichment step fills
it. -/
structure BanActionLog where
  id : Nat
  protocol : String
  createdAt : Int
  ip : String
  location : Option String
deriving DecidableEq, Repr

/-- A row of the location-cache table (`Location` in `database.go`); the
zero value (zero `id`, empty strings) doubles as gorm's not-found result. -/
structure Location where
  id : Nat
  ip : String
  countryName : String
deriving DecidableEq, Repr

/-- The zero `Location` value that `Find` leaves untouched when no row
matches. -/
def zeroLocation : Location := ⟨0, "", ""⟩

/-- The SQLite database held by `Database`: both tables in insertion order,
plus the id counters that gorm advances on `Create` (fresh ids start at 1). -/
structure Store where
  logs : List BanActionLog
  locations : List Location
  nextLogId : Nat
  nextLocId : Nat
deriving DecidableEq, Repr

/-- `SaveBanAction`: insert a fresh `BanActionLog` with `CreatedAt = now` and
a null location, returning the new row's id. -/
def SaveBanAction (s : Store) (now : Int) (protocol ip : String) : Store × Nat :=
  ({ s with
      logs := s.logs ++ [⟨s.nextLogId, protocol, now, ip, none⟩],
      nextLogId := s.nextLogId + 1 },
    s.nextLogId)

/-- `UpdateBanActionLocation`: set `location` on every row whose primary key
matches `id`. -/
def UpdateBanActionLocation (s : Store) (id : Nat) (location : String) : Store :=
  { s with
      logs := s.logs.map fun l =>
        if l.id = id then { l with location := some location } else l }

/-- The `Location` value produced by `LookupLocation`'s
`Limit(1).Where("ip = ?").Find`: the first row with the given ip, or the
untouched zero value when no row matches. -/
def lookupLocation (s : Store) (ip : String) : Location :=
  (s.locations.find? fun loc => loc.ip = ip).getD zeroLocation

/-- `LookupLocation` with its error channel: `Find` treats an empty result
set as success, so a missing row yields `.ok` of the zero-id sentinel; the
error channel carries only storage faults, which the relational model is
free of. -/
def LookupLocation (s : Store) (ip : String) : Except String Location :=
  .ok (lookupLocation s ip)

/-- `UpdateLocation`: set `country_name` on every cache row with the given
ip (used only by the resolve-unknown maintenance job). -/
def UpdateLocation (s : Store) (ip location : String) : Store :=
  { s with
      locations := s.locations.map fun loc =>
        if loc.ip = ip then { loc with countryName := location } else loc }

/-- `SaveLocation`: insert a fresh cache row; the UNIQUE index on `ip` makes
the insert fail when a row for the ip already exists. -/
def SaveLocation (s : Store) (ip location : String) : Except String (Store × Nat) :=
  if s.locations.any fun loc => loc.ip = ip then
    .error "UNIQUE constraint failed: locations.ip"
  else
    .ok ({ s with
            locations := s.locations ++ [⟨s.nextLocId, ip, location⟩],
            nextLocId := s.nextLocId + 1 },
      s.nextLocId)

/-- `ListUnknownIPs`: all cache rows whose `country_name` equals the
"Unknown" sentinel. -/
def ListUnknownIPs (s : Store) : List Location :=
  s.locations.filter fun loc => loc.countryName = unknownLocation

/-- `PurgeLogs`: `db.Delete(&BanActionLog{})`.  The call carries no WHERE
conditions and the model value's primary key is zero, so gorm v2's
global-delete guard rejects the statement with `ErrMissingWhereClause`
before any SQL runs: no row is deleted, the affected-row count is zero, and
the error is returned to the caller.  The result is the store (unchanged),
the `RowsAffected` count and the error. -/
def PurgeLogs (s : Store) : Store × Nat × Option String :=
  (s, 0, some ("WHERE conditions required"))

/-- `FetchLocation`: with no API key configured the call is skipped and the
"Unknown" sentinel is returned without an error; with a key, a successful
call returns the provider's country name (possibly empty) and a failed call
returns the sentinel together with the error.  The provider's response is
the `geoResponse` oracle. -/
def FetchLocation (geolocAPIKey : Option String) (geoResponse : Except String String)
    (_ip : String) : String × Option String :=
  match geolocAPIKey with
  | some _ =>
    match geoResponse with
    | .ok name => (name, none)
    | .error e => (unknownLocation, some e)
  | none => (unknownLocation, none)

/-- `processSave` of `run.go`: insert the event, look up the cache for its
ip; on a miss fetch the geolocation (degrading a failure or an empty result
to "Unknown"), save the outcome to the cache, and in every case back-fill
the just-created event's location.  Fetch and cache failures are logged, not
escalated, so the model is a total function on stores. -/
def processSave (s : Store) (now : Int) (protocol ip : String)
    (geolocAPIKey : Option String) (geoResponse : Except String String) : Store :=
  let saved := SaveBanAction s now protocol ip
  let s1 := saved.1
  let id := saved.2
  let cached := lookupLocation s1 ip
  if cached.id = 0 then
    let fetched := (FetchLocation geolocAPIKey geoResponse ip).1
    let fetched := if fetched = "" then unknownLocation else fetched
    let s2 := match SaveLocation s1 ip fetched with
      | .ok p => p.1
      | .error _ => s1
    UpdateBanActionLocation s2 id fetched
  else
    UpdateBanActionLocation s1 id cached.countryName

/-- A sequence of `SaveBanAction` calls, each given as
`(now, protocol, ip)`. -/
def saveMany (s : Store) (actions : List (Int × String × String)) : Store :=
  actions.foldl (fun s a => (SaveBanAction s a.1 a.2.1 a.2.2).1) s

/-! ## The aggregator (`generateReport` in `database.go`) -/

/-- A `SubReport`: one lookback window's date-range string, total count and
the two insertion-ordered count mappings. -/
structure SubReport where
  FromTo : String
  TotalCount : Int
  ProtocolCounts : keyValues
  CountryCounts : keyValues
deriving DecidableEq, Repr

/-- A `Report`: the two windows plus the optional insight text. -/
structure Report where
  LastDaysReport1 : SubReport
  LastDaysReport2 : SubReport
  Insight : Option String
deriving DecidableEq, Repr

/-- The lower bound of a window scan:
`time.Now().AddDate(0, 0, offsetDays - numDays)`. -/
def windowLowerBound (now offsetDays numDays : Int) : Int :=
  addDays now (offsetDays - numDays)

/-- The window scan `Where("created_at >= ?", bound).Find`: every event row
whose `createdAt` is at least the bound, in table order.  The predicate has
no upper bound. -/
def windowScan (s : Store) (bound : Int) : List BanActionLog :=
  s.logs.filter fun l => bound ≤ l.createdAt

/-- The accumulation loop body of `generateReport`: bump the protocol's
count, and the country's count when the event's location is non-null. -/
def countsStep (acc : keyValues × keyValues) (log : BanActionLog) : keyValues × keyValues :=
  (keyValues.Set acc.1 log.protocol ((keyValues.Get acc.1 log.protocol).1 + 1),
    match log.location with
    | some c => keyValues.Set acc.2 c ((keyValues.Get acc.2 c).1 + 1)
    | none => acc.2)

/-- The accumulation loop of `generateReport` over one window's matching
events, starting from the empty mappings. -/
def subReportCounts (logs : List BanActionLog) : keyValues × keyValues :=
  logs.foldl countsStep ([], [])

/-- The `"%s ~ %s"` date-range string of a window. -/
def fromToString (timestamp numDays : Int) : String :=
  formatTimestamp (addDays timestamp (-numDays)) ++ " ~ " ++ formatTimestamp timestamp

/-- One window's `SubReport` from its date-range string and matching
events. -/
def mkSubReport (fromTo : String) (logs : List BanActionLog) : SubReport :=
  { FromTo := fromTo,
    TotalCount := (logs.length : Int),
    ProtocolCounts := (subReportCounts logs).1,
    CountryCounts := (subReportCounts logs).2 }

/-- `generateReport` with the three internal `time.Now()` readings exposed:
`clockTs` is the reading taken for the reference timestamp of the date-range
strings, `clockScan1` and `clockScan2` the fresh readings taken inside the
two scan predicates. -/
def generateReportAtClock (s : Store) (clockTs clockScan1 clockScan2 : Int)
    (offsetDays numDaysForReport1 numDaysForReport2 : Int) : Report :=
  let timestamp := addDays clockTs offsetDays
  { LastDaysReport1 :=
      mkSubReport (fromToString timestamp numDaysForReport1)
        (windowScan s (windowLowerBound clockScan1 offsetDays numDaysForReport1)),
    LastDaysReport2 :=
      mkSubReport (fromToString timestamp numDaysForReport2)
        (windowScan s (windowLowerBound clockScan2 offsetDays numDaysForReport2)),
    Insight := none }

/-- `generateReport` under a frozen clock: the single instant `now` stands
for all three wall-clock readings of one invocation. -/
def generateReport (s : Store) (now : Int)
    (offsetDays numDaysForReport1 numDaysForReport2 : Int) : Report :=
  generateReportAtClock s now now now offsetDays numDaysForReport1 numDaysForReport2

/-! ## The renderers -/

/-- `"  %s: %d"`: one table line of the plain-text report. -/
def plainKVLine (kv : keyValue) : String :=
  "  " ++ kv.Key ++ ": " ++ toString kv.Value

/-- `"• %s: %d"`: one table line of the telegraph report. -/
def bulletKVLine (kv : keyValue) : String :=
  "• " ++ kv.Key ++ ": " ++ toString kv.Value

/-- `strings.Join(lines, "\n")`. -/
def joinLines (lines : List String) : String := String.intercalate "\n" lines

/-- `GetReportAsPlain`: the fixed plain-text template.  As in the source,
window 1's tables go through `sortKeyValues` while window 2's tables are
rendered directly in accumulation order. -/
def GetReportAsPlain (s : Store) (now : Int)
    (offsetDays numDaysForReport1 numDaysForReport2 : Int) : String :=
  let report := generateReport s now offsetDays numDaysForReport1 numDaysForReport2
  let protocolsForReport1 := (sortKeyValues report.LastDaysReport1.ProtocolCounts).map plainKVLine
  let countriesForReport1 := (sortKeyValues report.LastDaysReport1.CountryCounts).map plainKVLine
  let protocolsForReport2 := report.LastDaysReport2.ProtocolCounts.map plainKVLine
  let countriesForReport2 := report.LastDaysReport2.CountryCounts.map plainKVLine
  "\n>>> Generated Report:\n\n> " ++ report.LastDaysReport1.FromTo ++
    " (" ++ toString numDaysForReport1 ++ " days)\n* Total: " ++
    toString report.LastDaysReport1.TotalCount ++ " ban action(s)\n\n* Protocols:\n" ++
    joinLines protocolsForReport1 ++ "\n\n* Originating Countries:\n" ++
    joinLines countriesForReport1 ++ "\n---\n\n> " ++ report.LastDaysReport2.FromTo ++
    " (" ++ toString numDaysForReport2 ++ " days)\n* Total: " ++
    toString report.LastDaysReport2.TotalCount ++ " ban action(s)\n\n* Protocols:\n" ++
    joinLines protocolsForReport2 ++ "\n\n* Originating Countries:\n" ++
    joinLines countriesForReport2 ++ "\n---\n"

/-- `GetReportAsTelegraph`: the HTML template for telegra.ph.  All four
tables are sorted by count (window 1's protocol table is even sorted twice,
mirroring the redundant `sort.Slice` before the loop).  The trailing
attribution anchor reproduces the source's `%[10]s` verb: its `href`
receives the joined country lines of window 2, while `projectURL`, passed as
the eleventh argument, is never referenced by the format string. -/
def GetReportAsTelegraph (s : Store) (_telegraphAccessToken : Option String) (now : Int)
    (offsetDays numDaysForReport1 numDaysForReport2 : Int) : String :=
  let report := generateReport s now offsetDays numDaysForReport1 numDaysForReport2
  let presorted := sortKeyValues report.LastDaysReport1.ProtocolCounts
  let protocolsForReport1 := (sortKeyValues presorted).map bulletKVLine
  let countriesForReport1 := (sortKeyValues report.LastDaysReport1.CountryCounts).map bulletKVLine
  let protocolsForReport2 := (sortKeyValues report.LastDaysReport2.ProtocolCounts).map bulletKVLine
  let countriesForReport2 := (sortKeyValues report.LastDaysReport2.CountryCounts).map bulletKVLine
  "<h3>Generated Report</h3>\n\n<p>\n<h4>" ++ report.LastDaysReport1.FromTo ++
    " (" ++ toString numDaysForReport1 ++ " days)</h4>\n\n<strong>Total</strong> " ++
    toString report.LastDaysReport1.TotalCount ++
    " ban action(s)\n\n<strong>Protocols</strong>\n" ++
    joinLines protocolsForReport1 ++ "\n\n<strong>Originating Countries</strong>\n" ++
    joinLines countriesForReport1 ++ "\n</p>\n<p>\n<h4>" ++ report.LastDaysReport2.FromTo ++
    " (" ++ toString numDaysForReport2 ++ " days)</h4>\n\n<strong>Total</strong> " ++
    toString report.LastDaysReport2.TotalCount ++
    " ban action(s)\n\n<strong>Protocols</strong>\n" ++
    joinLines protocolsForReport2 ++ "\n\n<strong>Originating Countries</strong>\n" ++
    joinLines countriesForReport2 ++
    "\n</p>\n\n<i>report generated by <a href=\"" ++
    joinLines countriesForReport2 ++ "\">balog</a></i>"

/-! ## The JSON renderer, modelled at the level of JSON values -/

/-- JSON values; object fields are an ordered association list, so field
order is observable (Go's `json.Marshal` emits struct fields in declaration
order and slices in element order). -/
inductive Json where
  | str : String → Json
  | num : Int → Json
  | arr : List Json → Json
  | obj : List (String × Json) → Json
deriving Repr

/-- Field lookup in an encoded object. -/
def jsonLookup (fields : List (String × Json)) (key : String) : Option Json :=
  (fields.find? fun f => f.1 = key).map fun f => f.2

/-- Encoding of one `keyValue`: the struct has no json tags, so the exported
field names are used as-is. -/
def encodeKeyValue (kv : keyValue) : Json :=
  .obj [("Key", .str kv.Key), ("Value", .num kv.Value)]

/-- Encoding of a `SubReport` under its json tags; both count mappings are
emitted in accumulation (first-seen) order, with no sorting. -/
def encodeSubReport (w : SubReport) : Json :=
  .obj [("from_to", .str w.FromTo),
        ("total_count", .num w.TotalCount),
        ("protocol_counts", .arr (w.ProtocolCounts.map encodeKeyValue)),
        ("country_counts", .arr (w.CountryCounts.map encodeKeyValue))]

/-- Encoding of a `Report` under its json tags; `insight` has `omitempty`
and is dropped when null. -/
def encodeReport (r : Report) : Json :=
  .obj ([("last_days_report1", encodeSubReport r.LastDaysReport1),
         ("last_days_report2", encodeSubReport r.LastDaysReport2)] ++
    match r.Insight with
    | some s => [("insight", Json.str s)]
    | none => [])

/-- Decoding of one `keyValue`. -/
def decodeKeyValue : Json → Option keyValue
  | .obj fields =>
    match jsonLookup fields "Key", jsonLookup fields "Value" with
    | some (.str k), some (.num v) => some ⟨k, v⟩
    | _, _ => none
  | _ => none

/-- Decoding of an array of `keyValue`s, in order. -/
def decodeKVList : List Json → Option keyValues
  | [] => some []
  | j :: rest =>
    match decodeKeyValue j, decodeKVList rest with
    | some kv, some kvs => some (kv :: kvs)
    | _, _ => none

/-- Decoding of a `SubReport`. -/
def decodeSubReport : Json → Option SubReport
  | .obj fields =>
    match jsonLookup fields "from_to", jsonLookup fields "total_count",
        jsonLookup fields "protocol_counts", jsonLookup fields "country_counts" with
    | some (.str ft), some (.num tc), some (.arr ps), some (.arr cs) =>
      match decodeKVList ps, decodeKVList cs with
      | some pcs, some ccs => some ⟨ft, tc, pcs, ccs⟩
      | _, _ => none
    | _, _, _, _ => none
  | _ => none

/-- Decoding of a `Report`; a missing `insight` field decodes to null. -/
def decodeReport : Json → Option Report
  | .obj fields =>
    match jsonLookup fields "last_days_report1", jsonLookup fields "last_days_report2" with
    | some j1, some j2 =>
      match decodeSubReport j1, decodeSubReport j2 with
      | some w1, some w2 =>
        some ⟨w1, w2,
          match jsonLookup fields "insight" with
          | some (.str s) => some s
          | _ => none⟩
      | _, _ => none
    | _, _ => none
  | _ => none

/-- `GetReportAsJSON`: `json.Marshal` applied to the freshly generated
report. -/
def GetReportAsJSON (s : Store) (now : Int)
    (offsetDays numDaysForReport1 numDaysForReport2 : Int) : Json :=
  encodeReport (generateReport s now offsetDays numDaysForReport1 numDaysForReport2)

/-! ## Lemmas about the accumulation loop -/

/-- The `Get`-then-`Set` counting fold over a list of keys. -/
def countAccum (xs : List String) (init : keyValues) : keyValues :=
  xs.foldl (fun kvs x => keyValues.Set kvs x ((keyValues.Get kvs x).1 + 1)) init

theorem countsFold_fst (logs : List BanActionLog) (acc : keyValues × keyValues) :
    (logs.foldl countsStep acc).1 = countAccum (logs.map BanActionLog.protocol) acc.1 := by
  induction logs generalizing acc with
  | nil => rfl
  | cons l logs ih =>
    simp only [List.foldl_cons, List.map_cons, countAccum, ih]
    rfl

theorem countsFold_snd (logs : List BanActionLog) (acc : keyValues × keyValues) :
    (logs.foldl countsStep acc).2 = countAccum (logs.filterMap BanActionLog.location) acc.2 := by
  induction logs generalizing acc with
  | nil => rfl
  | cons l logs ih =>
    cases hloc : l.location with
    | none =>
      simp only [List.foldl_cons, List.filterMap_cons, hloc, ih]
      simp [countsStep, hloc]
    | some c =>
      simp only [List.foldl_cons, List.filterMap_cons, hloc, ih, countAccum, List.foldl_cons]
      simp [countsStep, hloc]

theorem countAccum_Get (xs : List String) (init : keyValues) (k : String) :
    keyValues.Get (countAccum xs init) k =
      ((keyValues.Get init k).1 + (xs.count k : Int),
        (keyValues.Get init k).2 || decide (k ∈ xs)) := by
  induction xs generalizing init with
  | nil => simp [countAccum]
  | cons x xs ih =>
    simp only [countAccum, List.foldl_cons] at ih ⊢
    rw [ih, keyValues_Get_Set]
    rcases eq_or_ne k x with h | h
    · subst h
      simp only [if_pos rfl, Prod.mk.injEq]
      refine ⟨?_, ?_⟩
      · simp only [List.count_cons, beq_self_eq_true, if_pos]
        push_cast
        ring
      · simp
    · simp only [if_neg h, Prod.mk.injEq]
      refine ⟨?_, ?_⟩
      · have hbeq : (x == k) = false := beq_eq_false_iff_ne.mpr (Ne.symm h)
        simp [List.count_cons, hbeq]
      · simp [h]

theorem countAccum_keys (xs : List String) (init : keyValues) :
    (countAccum xs init).map keyValue.Key =
      firstSeenFrom (init.map keyValue.Key) xs := by
  induction xs generalizing init with
  | nil => rfl
  | cons x xs ih =>
    simp only [countAccum, List.foldl_cons] at ih ⊢
    rw [ih, keyValues_keys_Set]
    rfl

/-- `count` of a projected key equals the length of the filter over rows. -/
theorem count_map_protocol (l : List BanActionLog) (p : String) :
    ((l.map BanActionLog.protocol).count p : Nat) =
      (l.filter fun x => x.protocol = p).length := by
  induction l with
  | nil => rfl
  | cons x l ih =>
    simp only [List.map_cons, List.count_cons, List.filter_cons]
    rcases eq_or_ne x.protocol p with h | h
    · simp [h, ih]
    · have hbeq : (p == x.protocol) = false := beq_eq_false_iff_ne.mpr (Ne.symm h)
      simp [h, hbeq, ih]

/-- `count` of a resolved country equals the length of the filter over
rows carrying exactly that location. -/
theorem count_filterMap_location (l : List BanActionLog) (c : String) :
    ((l.filterMap BanActionLog.location).count c : Nat) =
      (l.filter fun x => x.location = some c).length := by
  induction l with
  | nil => rfl
  | cons x l ih =>
    cases hloc : x.location with
    | none => simp [List.filterMap_cons, List.filter_cons, hloc, ih]
    | some d =>
      simp only [List.filterMap_cons, hloc, List.count_cons, List.filter_cons]
      rcases eq_or_ne d c with h | h
      · simp [h, ih]
      · have hbeq : (c == d) = false := beq_eq_false_iff_ne.mpr (Ne.symm h)
        have : ¬ (some d = some c) := fun hc => h (Option.some.inj hc)
        simp [hbeq, this, h, ih]

/-- Keys of the protocol mapping accumulated over a window. -/
theorem subReportCounts_fst_Get (logs : List BanActionLog) (p : String) :
    (keyValues.Get (subReportCounts logs).1 p).1 =
      ((logs.filter fun l => l.protocol = p).length : Int) := by
  rw [subReportCounts, countsFold_fst, countAccum_Get]
  simp [keyValues.Get, count_map_protocol]

theorem subReportCounts_fst_keys (logs : List BanActionLog) :
    (subReportCounts logs).1.map keyValue.Key =
      firstSeen (logs.map BanActionLog.protocol) := by
  rw [subReportCounts, countsFold_fst, countAccum_keys]
  rfl

theorem subReportCounts_snd_Get (logs : List BanActionLog) (c : String) :
    (keyValues.Get (subReportCounts logs).2 c).1 =
      ((logs.filter fun l => l.location = some c).length : Int) := by
  rw [subReportCounts, countsFold_snd, countAccum_Get]
  simp [keyValues.Get, count_filterMap_location]

theorem subReportCounts_snd_keys (logs : List BanActionLog) :
    (subReportCounts logs).2.map keyValue.Key =
      firstSeen (logs.filterMap BanActionLog.location) := by
  rw [subReportCounts, countsFold_snd, countAccum_keys]
  rfl

/-! ## Claim theorems -/

/-- Claim C1: for every store state and every call
`generateReport(offsetDays, lenA, lenB)`, an event is included in a window
exactly when its `createdAt` is at least `(now + offsetDays days) - windowLen
days`; the scan predicate imposes only this lower bound (there is no
upper-bound comparison against the reference instant), the boundary itself
being included, and the windows' matching rows are exactly what the two
`TotalCount`s of the generated report count. -/
theorem windowScan_membership_iff (s : Store) (now offsetDays lenA lenB : Int)
    (l : BanActionLog) (hl : l ∈ s.logs) :
    (l ∈ windowScan s (windowLowerBound now offsetDays lenA) ↔
        addDays (addDays now offsetDays) (-lenA) ≤ l.createdAt)
    ∧ (l ∈ windowScan s (windowLowerBound now offsetDays lenB) ↔
        addDays (addDays now offsetDays) (-lenB) ≤ l.createdAt)
    ∧ (generateReport s now offsetDays lenA lenB).LastDaysReport1.TotalCount =
        ((windowScan s (windowLowerBound now offsetDays lenA)).length : Int)
    ∧ (generateReport s now offsetDays lenA lenB).LastDaysReport2.TotalCount =
        ((windowScan s (windowLowerBound now offsetDays lenB)).length : Int) := by
  have key : ∀ len : Int,
      addDays (addDays now offsetDays) (-len) = windowLowerBound now offsetDays len := by
    intro len
    simp only [addDays, windowLowerBound]
    ring
  refine ⟨?_, ?_, rfl, rfl⟩ <;> rw [key] <;> simp [windowScan, List.mem_filter, hl]

/-- Store and row used to witness hypotheses about scan membership. -/
def w1Store : Store :=
  ⟨[⟨1, "ssh", addDays 0 (-3), "1.2.3.4", none⟩], [], 2, 1⟩

theorem windowScan_membership_iff_witness :
    (⟨1, "ssh", addDays 0 (-3), "1.2.3.4", none⟩ : BanActionLog) ∈ w1Store.logs
    ∧ ((⟨1, "ssh", addDays 0 (-3), "1.2.3.4", none⟩ : BanActionLog) ∈
          windowScan w1Store (windowLowerBound 0 0 7) ↔
        addDays (addDays 0 0) (-7) ≤
          (⟨1, "ssh", addDays 0 (-3), "1.2.3.4", none⟩ : BanActionLog).createdAt) :=
  ⟨by decide,
    (windowScan_membership_iff w1Store 0 0 7 30 ⟨1, "ssh", addDays 0 (-3), "1.2.3.4", none⟩
      (by decide)).1⟩

/-- Claim C2: in every window computed by `generateReport`, `TotalCount` is
the number of matching events (null locations included), every protocol's
count is the number of matching events with that protocol with the mapping
in first-occurrence order, and every country's count is the number of
matching events whose location is non-null and equal to that country, the
country mapping likewise in first-occurrence order — so null-location events
reach `TotalCount` and the protocol counts but no country count. -/
theorem generateReport_counts (s : Store) (now offsetDays lenA lenB : Int) :
    ((generateReport s now offsetDays lenA lenB).LastDaysReport1.TotalCount =
        ((windowScan s (windowLowerBound now offsetDays lenA)).length : Int)
      ∧ (∀ p,
          (keyValues.Get
            (generateReport s now offsetDays lenA lenB).LastDaysReport1.ProtocolCounts p).1 =
          (((windowScan s (windowLowerBound now offsetDays lenA)).filter
              fun l => l.protocol = p).length : Int))
      ∧ (generateReport s now offsetDays lenA lenB).LastDaysReport1.ProtocolCounts.map
            keyValue.Key =
          firstSeen ((windowScan s (windowLowerBound now offsetDays lenA)).map
            BanActionLog.protocol)
      ∧ (∀ c,
          (keyValues.Get
            (generateReport s now offsetDays lenA lenB).LastDaysReport1.CountryCounts c).1 =
          (((windowScan s (windowLowerBound now offsetDays lenA)).filter
              fun l => l.location = some c).length : Int))
      ∧ (generateReport s now offsetDays lenA lenB).LastDaysReport1.CountryCounts.map
            keyValue.Key =
          firstSeen ((windowScan s (windowLowerBound now offsetDays lenA)).filterMap
            BanActionLog.location))
    ∧ ((generateReport s now offsetDays lenA lenB).LastDaysReport2.TotalCount =
        ((windowScan s (windowLowerBound now offsetDays lenB)).length : Int)
      ∧ (∀ p,
          (keyValues.Get
            (generateReport s now offsetDays lenA lenB).LastDaysReport2.ProtocolCounts p).1 =
          (((windowScan s (windowLowerBound now offsetDays lenB)).filter
              fun l => l.protocol = p).length : Int))
      ∧ (generateReport s now offsetDays lenA lenB).LastDaysReport2.ProtocolCounts.map
            keyValue.Key =
          firstSeen ((windowScan s (windowLowerBound now offsetDays lenB)).map
            BanActionLog.protocol)
      ∧ (∀ c,
          (keyValues.Get
            (generateReport s now offsetDays lenA lenB).LastDaysReport2.CountryCounts c).1 =
          (((windowScan s (windowLowerBound now offsetDays lenB)).filter
              fun l => l.location = some c).length : Int))
      ∧ (generateReport s now offsetDays lenA lenB).LastDaysReport2.CountryCounts.map
            keyValue.Key =
          firstSeen ((windowScan s (windowLowerBound now offsetDays lenB)).filterMap
            BanActionLog.location)) := by
  exact ⟨⟨rfl,
      fun p => subReportCounts_fst_Get _ p,
      subReportCounts_fst_keys _,
      fun c => subReportCounts_snd_Get _ c,
      subReportCounts_snd_keys _⟩,
    ⟨rfl,
      fun p => subReportCounts_fst_Get _ p,
      subReportCounts_fst_keys _,
      fun c => subReportCounts_snd_Get _ c,
      subReportCounts_snd_keys _⟩⟩

/-- Logs are only appended by a save; the location cache is untouched. -/
theorem saveMany_logs_length (actions : List (Int × String × String)) :
    ∀ s : Store, (saveMany s actions).logs.length = s.logs.length + actions.length := by
  induction actions with
  | nil => intro s; simp [saveMany]
  | cons a actions ih =>
    intro s
    simp only [saveMany, List.foldl_cons] at ih ⊢
    rw [ih]
    simp [SaveBanAction]
    omega

theorem saveMany_locations (actions : List (Int × String × String)) :
    ∀ s : Store, (saveMany s actions).locations = s.locations := by
  induction actions with
  | nil => intro s; rfl
  | cons a actions ih =>
    intro s
    simp only [saveMany, List.foldl_cons] at ih ⊢
    rw [ih]
    rfl

/-- Claim C6 fails on the code: `PurgeLogs` issues a conditions-free global
delete, which gorm rejects with `ErrMissingWhereClause` before any SQL runs.
After one successful save into an empty store, the purge leaves the saved
row in place, reports zero affected rows instead of one, and returns the
error; the location cache is untouched, as claimed, but only because the
whole statement is blocked. -/
theorem purgeLogs_blocked_by_missing_where_clause :
    (PurgeLogs (saveMany ⟨[], [], 1, 1⟩ [(0, "ssh", "1.2.3.4")])).1.logs =
      [⟨1, "ssh", 0, "1.2.3.4", none⟩]
    ∧ (PurgeLogs (saveMany ⟨[], [], 1, 1⟩ [(0, "ssh", "1.2.3.4")])).2.1 = 0
    ∧ (PurgeLogs (saveMany ⟨[], [], 1, 1⟩ [(0, "ssh", "1.2.3.4")])).2.2 =
        some ("WHERE conditions required")
    ∧ (PurgeLogs (saveMany ⟨[], [], 1, 1⟩ [(0, "ssh", "1.2.3.4")])).1.locations = [] := by
  refine ⟨?_, rfl, rfl, rfl⟩
  decide

/-- Claim C7: looking up an ip with no cache record returns the zero-value
sentinel (surrogate id zero) through the success channel, not an error; and
under the store invariant that persisted rows never carry the zero id, a
zero id in the lookup result is exactly the "not cached" case, which is what
separates it from a row cached as "Unknown". -/
theorem lookupLocation_miss_sentinel (s : Store) (ip : String)
    (hids : ∀ loc ∈ s.locations, loc.id ≠ 0) :
    ((lookupLocation s ip).id = 0 ↔ ∀ loc ∈ s.locations, loc.ip ≠ ip)
    ∧ ((∀ loc ∈ s.locations, loc.ip ≠ ip) →
        LookupLocation s ip = .ok zeroLocation ∧ zeroLocation.id = 0) := by
  constructor
  · constructor
    · intro h0 loc hm hip
      cases hfind : s.locations.find? fun loc => loc.ip = ip with
      | none =>
        have := List.find?_eq_none.mp hfind loc hm
        simp [hip] at this
      | some found =>
        have hmem : found ∈ s.locations := List.mem_of_find?_eq_some hfind
        have : (lookupLocation s ip).id = found.id := by
          simp [lookupLocation, hfind]
        exact hids found hmem (this ▸ h0)
    · intro hmiss
      have hfind : (s.locations.find? fun loc => loc.ip = ip) = none := by
        apply List.find?_eq_none.mpr
        intro loc hm
        simpa using hmiss loc hm
      simp [lookupLocation, hfind, zeroLocation]
  · intro hmiss
    have hfind : (s.locations.find? fun loc => loc.ip = ip) = none := by
      apply List.find?_eq_none.mpr
      intro loc hm
      simpa using hmiss loc hm
    refine ⟨?_, rfl⟩
    simp [LookupLocation, lookupLocation, hfind]

/-- Cache used to witness the lookup-miss sentinel. -/
def w7Store : Store :=
  ⟨[], [⟨1, "8.8.8.8", "United States"⟩], 1, 2⟩

theorem lookupLocation_miss_sentinel_witness :
    (∀ loc ∈ w7Store.locations, loc.id ≠ 0)
    ∧ ((lookupLocation w7Store "1.2.3.4").id = 0 ↔
        ∀ loc ∈ w7Store.locations, loc.ip ≠ "1.2.3.4") :=
  ⟨by decide, (lookupLocation_miss_sentinel w7Store "1.2.3.4" (by decide)).1⟩

/-! ### The `Set`/`Get` accumulator invariants (claim C10) -/

/-- Fold of a sequence of `Set` calls over the empty accumulator. -/
def applySets (ops : List (String × Int)) : keyValues :=
  ops.foldl (fun kvs op => keyValues.Set kvs op.1 op.2) []

theorem applySets_concat (ops : List (String × Int)) (op : String × Int) :
    applySets (ops ++ [op]) = keyValues.Set (applySets ops) op.1 op.2 := by
  simp [applySets, List.foldl_append]

theorem setFold_keys_nodup (ops : List (String × Int)) :
    ∀ kvs : keyValues, (kvs.map keyValue.Key).Nodup →
      (((ops.foldl (fun kvs op => keyValues.Set kvs op.1 op.2) kvs)).map keyValue.Key).Nodup := by
  induction ops with
  | nil => intro kvs h; exact h
  | cons op ops ih =>
    intro kvs h
    simp only [List.foldl_cons]
    apply ih
    rw [keyValues_keys_Set]
    by_cases hm : op.1 ∈ kvs.map keyValue.Key
    · simpa [hm] using h
    · simp only [if_neg hm]
      simp [List.nodup_append, h, hm]

theorem setFold_keys (ops : List (String × Int)) :
    ∀ kvs : keyValues,
      ((ops.foldl (fun kvs op => keyValues.Set kvs op.1 op.2) kvs)).map keyValue.Key =
        firstSeenFrom (kvs.map keyValue.Key) (ops.map Prod.fst) := by
  induction ops with
  | nil => intro kvs; rfl
  | cons op ops ih =>
    intro kvs
    simp only [List.foldl_cons, List.map_cons]
    rw [ih, keyValues_keys_Set]
    rfl

/-- Claim C10: starting from an empty accumulator, after any sequence of
`Set(key, value)` calls each key occurs at most once, keys stand in the
order of their first `Set`, and `Get(key)` returns the most recent `Set`
value with the existence flag, or `(0, false)` for a key never `Set`. -/
theorem applySets_invariants (ops : List (String × Int)) :
    ((applySets ops).map keyValue.Key).Nodup
    ∧ (applySets ops).map keyValue.Key = firstSeen (ops.map Prod.fst)
    ∧ ∀ k, keyValues.Get (applySets ops) k =
        (match (ops.filter fun op => op.1 = k).getLast? with
          | some op => (op.2, true)
          | none => (0, false)) := by
  refine ⟨setFold_keys_nodup ops [] (by simp), setFold_keys ops [], ?_⟩
  intro k
  induction ops using List.reverseRecOn with
  | nil => rfl
  | append_singleton ops op ih =>
    rw [applySets_concat, keyValues_Get_Set, List.filter_append]
    rcases eq_or_ne op.1 k with h | h
    · simp [h, List.getLast?_concat]
    · have : ¬ k = op.1 := fun hc => h hc.symm
      simp [h, this, ih]

/-- Back-filling a fresh id leaves every already-persisted row unchanged. -/
theorem map_setLocation_of_fresh (logs : List BanActionLog) (id : Nat) (loc : String)
    (h : ∀ l ∈ logs, l.id ≠ id) :
    (logs.map fun l => if l.id = id then { l with location := some loc } else l) = logs := by
  induction logs with
  | nil => rfl
  | cons x logs ih =>
    simp only [List.map_cons]
    rw [if_neg (h x (List.mem_cons_self x logs)), ih fun l hm => h l (List.mem_cons_of_mem x hm)]

/-- Claim C5: in the save-with-enrichment sequence, when the ip is not yet
cached and the geolocation fetch fails or returns the empty string, the
sequence still appends a cache record with countryName "Unknown", still sets
the just-created event's location to "Unknown" (the fetch failure is logged,
never escalated: `processSave` is total on stores), and afterwards
`ListUnknownIPs` holds exactly one record for that ip, carrying "Unknown". -/
theorem processSave_fetch_failure_degrades_to_unknown
    (s : Store) (now : Int) (protocol ip apiKey : String)
    (geoResponse : Except String String)
    (hip : ∀ loc ∈ s.locations, loc.ip ≠ ip)
    (hfresh : ∀ l ∈ s.logs, l.id ≠ s.nextLogId)
    (hfail : (∃ e, geoResponse = Except.error e) ∨ geoResponse = Except.ok "") :
    (processSave s now protocol ip (some apiKey) geoResponse).locations =
        s.locations ++ [⟨s.nextLocId, ip, unknownLocation⟩]
    ∧ (processSave s now protocol ip (some apiKey) geoResponse).logs =
        s.logs ++ [⟨s.nextLogId, protocol, now, ip, some unknownLocation⟩]
    ∧ (ListUnknownIPs
          (processSave s now protocol ip (some apiKey) geoResponse)).filter
          (fun loc => loc.ip = ip) =
        [⟨s.nextLocId, ip, unknownLocation⟩] := by
  have hfind : (s.locations.find? fun loc => loc.ip = ip) = none := by
    apply List.find?_eq_none.mpr
    intro loc hm
    simpa using hip loc hm
  have hany : (s.locations.any fun loc => loc.ip = ip) = false := by
    rw [List.any_eq_false]
    intro loc hm
    simpa using hip loc hm
  have hfetched :
      (if (FetchLocation (some apiKey) geoResponse ip).1 = "" then unknownLocation
        else (FetchLocation (some apiKey) geoResponse ip).1) = unknownLocation := by
    rcases hfail with ⟨e, he⟩ | he <;> subst he <;> simp [FetchLocation, unknownLocation]
  have hmain : processSave s now protocol ip (some apiKey) geoResponse =
      { logs := s.logs ++ [⟨s.nextLogId, protocol, now, ip, some unknownLocation⟩],
        locations := s.locations ++ [⟨s.nextLocId, ip, unknownLocation⟩],
        nextLogId := s.nextLogId + 1,
        nextLocId := s.nextLocId + 1 } := by
    rw [processSave]
    simp only [SaveBanAction, lookupLocation, hfind, Option.getD_none, zeroLocation,
      if_pos rfl, hfetched, SaveLocation, hany, Bool.false_eq_true, if_false,
      UpdateBanActionLocation]
    simp only [List.map_append, map_setLocation_of_fresh s.logs s.nextLogId _ hfresh,
      List.map_cons, List.map_nil, if_pos rfl]
    simp
  refine ⟨by rw [hmain], by rw [hmain], ?_⟩
  rw [hmain]
  show ((s.locations ++ [(⟨s.nextLocId, ip, unknownLocation⟩ : Location)]).filter
      (fun loc : Location => loc.countryName = unknownLocation)).filter
      (fun loc : Location => loc.ip = ip) =
    [(⟨s.nextLocId, ip, unknownLocation⟩ : Location)]
  rw [List.filter_append, List.filter_append]
  have hnil : ((s.locations.filter fun loc => loc.countryName = unknownLocation).filter
      fun loc => loc.ip = ip) = [] := by
    rw [List.filter_eq_nil_iff]
    intro loc hm
    simpa using hip loc (List.mem_of_mem_filter hm)
  rw [hnil]
  simp [unknownLocation]

/-- Witness input: an empty store and a failing geolocation call. -/
def emptyStore : Store := ⟨[], [], 1, 1⟩

theorem processSave_fetch_failure_degrades_to_unknown_witness :
    (∀ loc ∈ emptyStore.locations, loc.ip ≠ "1.2.3.4")
    ∧ (∀ l ∈ emptyStore.logs, l.id ≠ emptyStore.nextLogId)
    ∧ ((∃ e, (Except.error "connection refused" : Except String String) = Except.error e)
        ∨ (Except.error "connection refused" : Except String String) = Except.ok "")
    ∧ (ListUnknownIPs
          (processSave emptyStore 0 "ssh" "1.2.3.4" (some "apikey")
            (Except.error "connection refused"))).filter
          (fun loc => loc.ip = "1.2.3.4") =
        [⟨emptyStore.nextLocId, "1.2.3.4", unknownLocation⟩] :=
  ⟨by decide, by decide, Or.inl ⟨"connection refused", rfl⟩,
    (processSave_fetch_failure_degrades_to_unknown emptyStore 0 "ssh" "1.2.3.4" "apikey"
      (Except.error "connection refused") (by decide) (by decide)
      (Or.inl ⟨"connection refused", rfl⟩)).2.2⟩

/-! ### The wall clock inside `generateReport` (claim C8) -/

/-- Store with one event six days in the past of the epoch, used to separate
two invocations whose wall-clock readings differ. -/
def c8Store : Store := ⟨[⟨1, "ssh", addDays 0 (-6), "1.2.3.4", none⟩], [], 2, 1⟩

/-- Claim C8 is false as stated: `generateReport` does not take the
reference timestamp as an input — it reads the wall clock internally (once
for the date-range strings and once per window scan), so two calls with
identical arguments against the unmodified `c8Store`, two days of wall-clock
time apart, disagree on window A's `TotalCount`. -/
theorem generateReport_not_clock_independent :
    (generateReportAtClock c8Store 0 0 0 0 7 30).LastDaysReport1.TotalCount = 1
    ∧ (generateReportAtClock c8Store (addDays 0 2) (addDays 0 2) (addDays 0 2)
        0 7 30).LastDaysReport1.TotalCount = 0 := by
  constructor <;> decide

/-- Claim C8 as amended: the reference timestamp is read from the wall clock
inside `generateReport`, not passed as a parameter; when the clock readings
of two invocations coincide the results are bit-identical, and under a
frozen clock `generateReport` is the deterministic single-instant
semantics. -/
theorem generateReport_deterministic_at_frozen_clock
    (s : Store) (c1 c2 c3 d1 d2 d3 offsetDays len1 len2 : Int)
    (h1 : c1 = d1) (h2 : c2 = d2) (h3 : c3 = d3) :
    generateReportAtClock s c1 c2 c3 offsetDays len1 len2 =
        generateReportAtClock s d1 d2 d3 offsetDays len1 len2
    ∧ generateReportAtClock s c1 c1 c1 offsetDays len1 len2 =
        generateReport s c1 offsetDays len1 len2 := by
  subst h1
  subst h2
  subst h3
  exact ⟨rfl, rfl⟩

theorem generateReport_deterministic_at_frozen_clock_witness :
    (0 : Int) = 0
    ∧ generateReportAtClock c8Store 0 0 0 0 7 30 =
        generateReportAtClock c8Store 0 0 0 0 7 30 :=
  ⟨rfl,
    (generateReport_deterministic_at_frozen_clock c8Store 0 0 0 0 0 0 0 7 30
      rfl rfl rfl).1⟩

/-! ### JSON round trip (claim C9) -/

/-- Field access on an encoded object. -/
def jsonField : Json → String → Option Json
  | .obj fields, key => jsonLookup fields key
  | _, _ => none

theorem decodeKeyValue_encode (kv : keyValue) :
    decodeKeyValue (encodeKeyValue kv) = some kv := rfl

theorem decodeKVList_encode (l : keyValues) :
    decodeKVList (l.map encodeKeyValue) = some l := by
  induction l with
  | nil => rfl
  | cons kv l ih =>
    simp only [List.map_cons, decodeKVList, decodeKeyValue_encode, ih]

theorem decodeSubReport_encode (w : SubReport) :
    decodeSubReport (encodeSubReport w) = some w := by
  cases w with
  | mk ft tc pcs ccs =>
    show (match decodeKVList (pcs.map encodeKeyValue), decodeKVList (ccs.map encodeKeyValue) with
      | some p, some c => some (⟨ft, tc, p, c⟩ : SubReport)
      | _, _ => none) = some ⟨ft, tc, pcs, ccs⟩
    rw [decodeKVList_encode, decodeKVList_encode]

/-- Claim C9: encoding a `Report` with the JSON renderer and decoding it
back restores the report exactly — in particular the total counts and every
count mapping's keys and values — and the encoder emits both mappings of
each window as arrays in first-seen accumulation order, with no re-sorting
by count; the same round trip holds for `GetReportAsJSON` over any store. -/
theorem encodeReport_roundtrip_and_order :
    (∀ r : Report, decodeReport (encodeReport r) = some r)
    ∧ (∀ w : SubReport,
        jsonField (encodeSubReport w) "protocol_counts" =
          some (Json.arr (w.ProtocolCounts.map encodeKeyValue))
        ∧ jsonField (encodeSubReport w) "country_counts" =
          some (Json.arr (w.CountryCounts.map encodeKeyValue)))
    ∧ (∀ (s : Store) (now offsetDays len1 len2 : Int),
        decodeReport (GetReportAsJSON s now offsetDays len1 len2) =
          some (generateReport s now offsetDays len1 len2)) := by
  have hround : ∀ r : Report, decodeReport (encodeReport r) = some r := by
    intro r
    cases r with
    | mk w1 w2 ins =>
      cases ins with
      | none =>
        show (match decodeSubReport (encodeSubReport w1),
            decodeSubReport (encodeSubReport w2) with
          | some v1, some v2 => some (⟨v1, v2, none⟩ : Report)
          | _, _ => none) = some ⟨w1, w2, none⟩
        rw [decodeSubReport_encode, decodeSubReport_encode]
      | some txt =>
        show (match decodeSubReport (encodeSubReport w1),
            decodeSubReport (encodeSubReport w2) with
          | some v1, some v2 => some (⟨v1, v2, some txt⟩ : Report)
          | _, _ => none) = some ⟨w1, w2, some txt⟩
        rw [decodeSubReport_encode, decodeSubReport_encode]
  exact ⟨hround, fun w => ⟨rfl, rfl⟩, fun s now offsetDays len1 len2 => hround _⟩

/-! ### Concrete render evaluations (claims C3 and C4) -/

/-- Store whose 30-day window carries protocol counts `{ssh:5, ftp:9}` (five
"ssh" events inserted before nine "ftp" events, all ten days in the past, so
the 7-day window is empty). -/
def c3Store : Store :=
  ⟨(List.range 5).map (fun i => ⟨i + 1, "ssh", addDays 0 (-10), "1.2.3.4", none⟩) ++
    (List.range 9).map (fun i => ⟨i + 6, "ftp", addDays 0 (-10), "5.6.7.8", none⟩),
    [], 15, 1⟩

set_option maxRecDepth 100000 in
/-- Claim C3 fails on the code: `GetReportAsPlain` passes only window 1's
tables through `sortKeyValues` and emits window 2's tables in accumulation
order.  At `c3Store` under a frozen clock at the epoch, window 2's protocol
counts are exactly the claim's `{ssh:5, ftp:9}`, yet the rendered text lists
`ssh: 5` before `ftp: 9` instead of descending by count. -/
theorem getReportAsPlain_window2_unsorted :
    (generateReport c3Store 0 0 7 30).LastDaysReport2.ProtocolCounts =
      [⟨"ssh", 5⟩, ⟨"ftp", 9⟩]
    ∧ GetReportAsPlain c3Store 0 0 7 30 =
      "\n>>> Generated Report:\n\n> 1969-12-25 00:00:00 ~ 1970-01-01 00:00:00 (7 days)\n* Total: 0 ban action(s)\n\n* Protocols:\n\n\n* Originating Countries:\n\n---\n\n> 1969-12-02 00:00:00 ~ 1970-01-01 00:00:00 (30 days)\n* Total: 14 ban action(s)\n\n* Protocols:\n  ssh: 5\n  ftp: 9\n\n* Originating Countries:\n\n---\n" :=
  ⟨rfl, rfl⟩

set_option maxRecDepth 100000 in
/-- Claim C4's attribution part fails on the code: the telegraph format
string closes with `<a href="%[10]s">balog</a>`, and its tenth argument is
the joined country lines of window 2 — `projectURL`, passed as the unused
eleventh argument, never reaches the output.  On an empty store the anchor's
href is therefore the empty string, not the project URL. -/
theorem getReportAsTelegraph_href_not_project_url :
    GetReportAsTelegraph emptyStore none 0 0 7 30 =
      "<h3>Generated Report</h3>\n\n<p>\n<h4>1969-12-25 00:00:00 ~ 1970-01-01 00:00:00 (7 days)</h4>\n\n<strong>Total</strong> 0 ban action(s)\n\n<strong>Protocols</strong>\n\n\n<strong>Originating Countries</strong>\n\n</p>\n<p>\n<h4>1969-12-02 00:00:00 ~ 1970-01-01 00:00:00 (30 days)</h4>\n\n<strong>Total</strong> 0 ban action(s)\n\n<strong>Protocols</strong>\n\n\n<strong>Originating Countries</strong>\n\n</p>\n\n" ++
        "<i>report generated by <a href=\"" ++ "" ++ "\">balog</a></i>"
    ∧ (("<a href=\"" ++ projectURL ++ "\">balog</a></i>").data.isSuffixOf
        (GetReportAsTelegraph emptyStore none 0 0 7 30).data) = false
    ∧ (("<a href=\"\">balog</a></i>").data.isSuffixOf
        (GetReportAsTelegraph emptyStore none 0 0 7 30).data) = true :=
  ⟨rfl, by decide, by decide⟩

end Balog
